import Mathlib

/-!
# Verification of `scripts/generate_icon.py`

A shallow embedding of the CardPro icon-generator script.  The script builds a
square RGBA raster (vertical gradient, radial lightening overlay, two rotated
"business card" layers, a wireless-indicator glyph) and `main` writes the
raster plus a static `Contents.json` descriptor into the asset catalog.

Modelling conventions:

* Pixels are `RGBA` records of natural-number byte channels; an image is its
  dimensions together with a total pixel map (out-of-bounds values are never
  observed by any theorem).
* Python's float expressions (`int(size * 0.55)`, the gradient interpolation,
  the radial-overlay blend) are modelled in exact real arithmetic: `int(x)` of
  a provably nonnegative quantity becomes an exact floor, computed with
  integer arithmetic (for the radial overlay this needs the exact ceiling of
  `√s / q`, provided by `ceilSqrtDiv`).  At every concrete input appearing in
  a theorem below, the discriminating quantities are separated from the
  relevant thresholds by far more than the float64 rounding error of the
  original script, so the exact model and the script agree there.
* The imaging library primitives used by the script (PIL's `ImageDraw` fills,
  `Image.rotate`, `Image.alpha_composite`) are external to the repository; the
  spec treats them as an external capability boundary.  They are modelled from
  their documented semantics: `ImageDraw` writes fill colors directly (no
  blending) so the last draw call covering a pixel wins; `alpha_composite`
  uses the standard over-operator; `rotate` with `expand=False` preserves the
  image dimensions, fills pixels coming from outside the source with the
  transparent color, and its bicubic resampling reads only source pixels near
  the inverse-rotated point, which lies at the same distance from the rotation
  center as the destination pixel.  Rotation's resampling arithmetic is kept
  abstract: the pipeline is parametrized by a `Resampler`, and `RotSupport`
  captures the distance-locality property just described, which is the only
  fact about rotated pixel values any claim needs.
-/

namespace CardPro

/-- One RGBA pixel; channels are byte values stored as naturals. -/
structure RGBA where
  r : Nat
  g : Nat
  b : Nat
  a : Nat
deriving DecidableEq, Repr

/-- The fully transparent black pixel `(0, 0, 0, 0)` used by `Image.new` and as
PIL's default fill for pixels rotated in from outside the source image. -/
def clear : RGBA := ⟨0, 0, 0, 0⟩

/-- All four channels are in byte range. -/
def RGBA.Valid (p : RGBA) : Prop := p.r ≤ 255 ∧ p.g ≤ 255 ∧ p.b ≤ 255 ∧ p.a ≤ 255

instance (p : RGBA) : Decidable p.Valid := by unfold RGBA.Valid; infer_instance

/-- An in-memory raster image: dimensions plus a pixel map. -/
structure Img where
  width : Nat
  height : Nat
  pix : Nat → Nat → RGBA

/-! ## Exact integer square roots

`isqrt` is a fuel-based binary integer square root (structural recursion, so
concrete instances reduce quickly inside `decide`/`rfl`); `ceilSqrtDiv s q`
computes `⌈√s / q⌉` exactly.  It is used to express the radial overlay's
`int(c * factor + 30 * (1 - dist/max_dist))` without real numbers. -/

def isqrtAux : Nat → Nat → Nat
  | 0, _ => 0
  | f + 1, n =>
    if n = 0 then 0
    else
      let r := 2 * isqrtAux f (n / 4)
      if (r + 1) ^ 2 ≤ n then r + 1 else r

/-- `isqrt n = ⌊√n⌋`. -/
def isqrt (n : Nat) : Nat := isqrtAux n n

/-- `sqrtCeil n = ⌈√n⌉`. -/
def sqrtCeil (n : Nat) : Nat := if isqrt n * isqrt n = n then isqrt n else isqrt n + 1

/-- `ceilSqrtDiv s q = ⌈√s / q⌉` (for `q > 0`). -/
def ceilSqrtDiv (s q : Nat) : Nat := (sqrtCeil s + q - 1) / q

/-! ## Geometry constants (`generate_icon.py` lines 40–58, 70, 88–89, 103,
113–118, 127, 134, 140, 155–157, 169, 172)

Each mirrors a Python `int(base * c)` with the float constant `c` written as an
exact fraction, so `int` becomes natural-number floor division. -/

/-- `card_width = int(size * 0.55)` (line 41). -/
def card_width (size : Nat) : Nat := size * 55 / 100

/-- `card_height = int(card_width * 0.6)` (line 42). -/
def card_height (size : Nat) : Nat := card_width size * 6 / 10

/-- `corner_radius = int(size * 0.03)` (line 43). -/
def corner_radius (size : Nat) : Nat := size * 3 / 100

/-- `back_x = int(size * 0.28)` (line 54). -/
def back_x (size : Nat) : Nat := size * 28 / 100

/-- `back_y = int(size * 0.32)` (line 55). -/
def back_y (size : Nat) : Nat := size * 32 / 100

/-- `shadow_offset = int(size * 0.015)` (line 58). -/
def shadow_offset (size : Nat) : Nat := size * 15 / 1000

/-- `accent_height = int(card_height * 0.15)` (line 70). -/
def accent_height (size : Nat) : Nat := card_height size * 15 / 100

/-- `front_x = int(size * 0.22)` (line 88). -/
def front_x (size : Nat) : Nat := size * 22 / 100

/-- `front_y = int(size * 0.38)` (line 89). -/
def front_y (size : Nat) : Nat := size * 38 / 100

/-- `bar_width = int(card_width * 0.04)` (line 103). -/
def bar_width (size : Nat) : Nat := card_width size * 4 / 100

/-- `line_x = front_x + int(card_width * 0.15)` (line 115). -/
def line_x (size : Nat) : Nat := front_x size + card_width size * 15 / 100

/-- Initial `line_y = front_y + int(card_height * 0.25)` (line 116). -/
def line_y0 (size : Nat) : Nat := front_y size + card_height size * 25 / 100

/-- `line_width = int(card_width * 0.5)` (line 117). -/
def line_width (size : Nat) : Nat := card_width size * 5 / 10

/-- `line_height = int(card_height * 0.08)` (line 118). -/
def line_height (size : Nat) : Nat := card_height size * 8 / 100

/-- `line_y` after `+= int(card_height * 0.18)` (line 127). -/
def line_y1 (size : Nat) : Nat := line_y0 size + card_height size * 18 / 100

/-- `line_y` after `+= int(card_height * 0.22)` (line 134). -/
def line_y2 (size : Nat) : Nat := line_y1 size + card_height size * 22 / 100

/-- `line_y` after `+= int(card_height * 0.12)` (line 140). -/
def line_y3 (size : Nat) : Nat := line_y2 size + card_height size * 12 / 100

/-- `indicator_size = int(size * 0.12)` (line 155). -/
def indicator_size (size : Nat) : Nat := size * 12 / 100

/-- `indicator_x = int(size * 0.78)` (line 156). -/
def indicator_x (size : Nat) : Nat := size * 78 / 100

/-- `indicator_y = int(size * 0.12)` (line 157). -/
def indicator_y (size : Nat) : Nat := size * 12 / 100

/-- `dot_radius = int(size * 0.015)` (line 172). -/
def dot_radius (size : Nat) : Nat := size * 15 / 1000

/-- Arc stroke width `int(size * 0.012)` (line 169). -/
def arc_width (size : Nat) : Nat := size * 12 / 1000

/-! ## Background gradient (lines 17–24)

For each row `y` the script draws the horizontal line `(0,y)–(size,y)` (which
covers every in-bounds pixel of the row) with
`(int(20 + 20*ratio), int(60 + 80*ratio), int(120 + 40*ratio), 255)` for
`ratio = y / size`. -/

/-- The gradient color of row `y`. -/
def gradRow (size y : Nat) : RGBA :=
  ⟨20 + 20 * y / size, 60 + 80 * y / size, 120 + 40 * y / size, 255⟩

/-- The base image after the gradient pass: every row holds its gradient
color, fully opaque. -/
def gradImg (size : Nat) : Img := ⟨size, size, fun _ y => gradRow size y⟩

/-! ## Radial overlay (lines 26–38)

Per pixel: `dist = √((x-cx)² + (y-cy)²)` with `cx = cy = size // 2`,
`max_dist = (size // 2) * 1.2`; if `dist < max_dist` the pixel is replaced by
`min(255, int(c * factor + 30 * (1 - dist/max_dist)))` per color channel with
`factor = 1 - (dist/max_dist) * 0.3`, alpha forced to `255`.  Writing
`n = dist²`, `h = size // 2`, the branch condition `dist < max_dist` is
`25 n < 36 h²`, and the replaced channel value is exactly
`(c + 30) - ⌈√(n·(3c+300)²) / (12h)⌉` (the quantity inside `int` is
nonnegative, so Python's truncation is a floor). -/

/-- Squared distance between `(x, y)` and `(cx, cy)`. -/
def distSq (cx cy x y : Nat) : Nat :=
  ((((x : Int) - cx) ^ 2 + ((y : Int) - cy) ^ 2)).toNat

/-- `dist < max_dist`, exactly. -/
def inDisc (size n : Nat) : Bool := 25 * n < 36 * (size / 2) ^ 2

/-- One channel of the radial-overlay replacement (line 37). -/
def overlayChan (size n c : Nat) : Nat :=
  min 255 (c + 30 - ceilSqrtDiv (n * (3 * c + 300) ^ 2) (12 * (size / 2)))

/-- The pixel value after the radial-overlay pass.  The pass reads each pixel
once before overwriting it, so it is pointwise in the gradient image. -/
def overlayPix (size x y : Nat) : RGBA :=
  if inDisc size (distSq (size / 2) (size / 2) x y) then
    ⟨overlayChan size (distSq (size / 2) (size / 2) x y) (gradRow size y).r,
     overlayChan size (distSq (size / 2) (size / 2) x y) (gradRow size y).g,
     overlayChan size (distSq (size / 2) (size / 2) x y) (gradRow size y).b, 255⟩
  else gradRow size y

/-- The background image after gradient and radial overlay. -/
def overlayImg (size : Nat) : Img := ⟨size, size, fun x y => overlayPix size x y⟩

/-! ## Draw-primitive membership

Models of the PIL `ImageDraw` region primitives the script uses.  `rectangle`
fills its bounding box inclusively; `rounded_rectangle` fills the box minus
the four corner squares outside the quarter-disc of the given radius.  (The
exact anti-aliasing of PIL's corner rasterization is immaterial to every
theorem below: only bounding boxes and a handful of far-away pixels are
observed.) -/

/-- `ImageDraw.rectangle((x1,y1,x2,y2))` membership (corners inclusive). -/
def inRect (x1 y1 x2 y2 px py : Int) : Bool :=
  x1 ≤ px && px ≤ x2 && y1 ≤ py && py ≤ y2

/-- Within distance `r` of a corner-disc center. -/
def nearCorner (cx cy r px py : Int) : Bool :=
  (px - cx) ^ 2 + (py - cy) ^ 2 ≤ r ^ 2

/-- `ImageDraw.rounded_rectangle((x1,y1,x2,y2), radius=r)` membership. -/
def inRoundedRect (x1 y1 x2 y2 r px py : Int) : Bool :=
  inRect x1 y1 x2 y2 px py &&
    ((x1 + r ≤ px && px ≤ x2 - r) || (y1 + r ≤ py && py ≤ y2 - r) ||
     nearCorner (x1 + r) (y1 + r) r px py || nearCorner (x2 - r) (y1 + r) r px py ||
     nearCorner (x1 + r) (y2 - r) r px py || nearCorner (x2 - r) (y2 - r) r px py)

/-! ## Card layers (lines 50–111, 113–144)

Each card layer is a fresh transparent `size × size` canvas onto which the
script draws, in order: drop shadow, card body, accent region(s), and (front
card only) four placeholder text bars.  `ImageDraw` writes fill colors
directly, so the pixel value of a layer is the fill of the *last* draw call
covering it, `clear` if none does. -/

def backShadowColor : RGBA := ⟨0, 0, 0, 60⟩
def backBodyColor : RGBA := ⟨240, 240, 245, 255⟩
def backAccentColor : RGBA := ⟨100, 160, 200, 255⟩
def frontShadowColor : RGBA := ⟨0, 0, 0, 80⟩
def frontBodyColor : RGBA := ⟨255, 255, 255, 255⟩
def frontAccentColor : RGBA := ⟨30, 100, 160, 255⟩
def nameBarColor : RGBA := ⟨60, 60, 70, 255⟩
def line_color : RGBA := ⟨180, 180, 190, 255⟩
def wave_color : RGBA := ⟨255, 255, 255, 180⟩

/-- The back-card layer before rotation (lines 51–79): shadow rounded
rectangle, body rounded rectangle, accent rounded rectangle, accent-fix
rectangle. -/
def backLayer (size : Nat) : Img :=
  ⟨size, size, fun px py =>
    let x : Int := px
    let y : Int := py
    let bx : Int := back_x size
    let bY : Int := back_y size
    let cw : Int := card_width size
    let ch : Int := card_height size
    let cr : Int := corner_radius size
    let so : Int := shadow_offset size
    let ah : Int := accent_height size
    if inRect bx (bY + ah - cr) (bx + cw) (bY + ah) x y then backAccentColor
    else if inRoundedRect bx bY (bx + cw) (bY + ah) cr x y then backAccentColor
    else if inRoundedRect bx bY (bx + cw) (bY + ch) cr x y then backBodyColor
    else if inRoundedRect (bx + so) (bY + so) (bx + cw + so) (bY + ch + so) cr x y then
      backShadowColor
    else clear⟩

/-- The front-card layer before rotation (lines 85–144): shadow, body, accent
bar (rounded rectangle plus fix rectangle), then four placeholder text bars
(name, title, two contact lines). -/
def frontLayer (size : Nat) : Img :=
  ⟨size, size, fun px py =>
    let x : Int := px
    let y : Int := py
    let fx : Int := front_x size
    let fy : Int := front_y size
    let cw : Int := card_width size
    let ch : Int := card_height size
    let cr : Int := corner_radius size
    let so : Int := shadow_offset size
    let bw : Int := bar_width size
    let lx : Int := line_x size
    let lw : Int := line_width size
    let lh : Int := line_height size
    let ly0 : Int := line_y0 size
    let ly1 : Int := line_y1 size
    let ly2 : Int := line_y2 size
    let ly3 : Int := line_y3 size
    if inRoundedRect lx ly3 (lx + lw * 75 / 100) (ly3 + lh * 5 / 10) (lh / 4) x y then
      line_color
    else if inRoundedRect lx ly2 (lx + lw * 6 / 10) (ly2 + lh * 5 / 10) (lh / 4) x y then
      line_color
    else if inRoundedRect lx ly1 (lx + lw * 7 / 10) (ly1 + lh * 6 / 10) (lh / 3) x y then
      line_color
    else if inRoundedRect lx ly0 (lx + lw) (ly0 + lh) (lh / 2) x y then nameBarColor
    else if inRect (fx + bw) fy (fx + bw + cr) (fy + ch) x y then frontAccentColor
    else if inRoundedRect fx fy (fx + bw + cr) (fy + ch) cr x y then frontAccentColor
    else if inRoundedRect fx fy (fx + cw) (fy + ch) cr x y then frontBodyColor
    else if inRoundedRect (fx + 2 * so) (fy + 2 * so) (fx + cw + 2 * so) (fy + ch + 2 * so)
        cr x y then frontShadowColor
    else clear⟩

/-! ## Rotation (lines 82 and 147)

`img.rotate(angle, resample=Image.BICUBIC, center=(size//2, size//2))` is PIL
library code.  With the default `expand=False` it returns an image of the
*same* dimensions; destination pixels are produced by bicubic interpolation of
the source around the inverse-rotated point (same distance from the rotation
center, the filter reading only pixels within Chebyshev distance 2 of it,
hence within Euclidean distance 3), and points inverse-rotated to outside the
source are filled with transparent black.  The resampling arithmetic itself is
irrelevant to every claim, so the pipeline is parametrized by it. -/

/-- An abstract resampling-based image transform: a pixel producer that keeps
byte-ranged inputs byte-ranged (PIL clamps interpolated values to bytes). -/
structure Resampler where
  sample : Img → Nat → Nat → RGBA
  valid : ∀ img : Img, (∀ x y, (img.pix x y).Valid) → ∀ x y, (sample img x y).Valid

/-- `rotate` with `expand=False`: same dimensions, resampled content. -/
def applyRot (r : Resampler) (img : Img) : Img := ⟨img.width, img.height, r.sample img⟩

/-- The distance-locality property of a rotation about the canvas center
`(size//2, size//2)`: if every non-transparent source pixel lies within
distance `R` of the center, then every in-bounds destination pixel at distance
greater than `R + 3` comes out transparent (rotation preserves distance to its
center and the bicubic filter reads only source pixels within distance 3 of
the inverse-rotated point; farther destination pixels read only transparent or
out-of-source points). -/
def RotSupport (r : Resampler) : Prop :=
  ∀ (img : Img) (R x y : Nat), x < img.width → y < img.height →
    (∀ sx sy, sx < img.width → sy < img.height → img.pix sx sy ≠ clear →
      ((sx : Int) - img.width / 2) ^ 2 + ((sy : Int) - img.height / 2) ^ 2 ≤ (R : Int) ^ 2) →
    ((R : Int) + 3) ^ 2 < ((x : Int) - img.width / 2) ^ 2 + ((y : Int) - img.height / 2) ^ 2 →
    r.sample img x y = clear

/-- The identity resampler (the 0° member of the rotation family), used to
instantiate closed witnesses and counterexamples at pixels whose value is
independent of the resampler. -/
def rotIdR : Resampler := ⟨fun img x y => img.pix x y, fun _ h x y => h x y⟩

/-! ## Alpha compositing (lines 149–151)

`Image.alpha_composite(dst, src)` lays `src` over `dst` with the standard
over-operator.  In byte channels, with `D = 255·sa + da·(255 - sa)`, the
output alpha is `D / 255` and each output color channel is
`(255·sc·sa + dc·da·(255 - sa)) / D` (exact when `src` is transparent or
`dst` opaque, which are the only cases any theorem observes). -/

/-- Composite one `src` pixel over one `dst` pixel. -/
def acPix (dst src : RGBA) : RGBA :=
  let D := 255 * src.a + dst.a * (255 - src.a)
  if D = 0 then clear
  else
    ⟨(255 * src.r * src.a + dst.r * dst.a * (255 - src.a)) / D,
     (255 * src.g * src.a + dst.g * dst.a * (255 - src.a)) / D,
     (255 * src.b * src.a + dst.b * dst.a * (255 - src.a)) / D,
     D / 255⟩

/-- `Image.alpha_composite` (pointwise; PIL requires equal dimensions, which
holds throughout the pipeline — claim C10). -/
def alphaComposite (dst src : Img) : Img :=
  ⟨dst.width, dst.height, fun x y => acPix (dst.pix x y) (src.pix x y)⟩

/-! ## Wireless-indicator glyph (lines 153–176)

Drawn directly onto the composited image via `ImageDraw.Draw(img)`: three
partial arcs (sweep 300°→60°, i.e. the sector within 60° of the positive
x-axis) of radii `0.3/0.5/0.7 · indicator_size` and stroke width
`int(size*0.012)` (strokes extend inward; a zero width draws nothing), then a
filled dot of radius `dot_radius`.  The fill is `wave_color = (255,255,255,180)`
written *directly* — `ImageDraw` on an RGBA image replaces the pixel including
its alpha; no blending happens. -/

def glyphCenterX (size : Nat) : Nat := indicator_x size

/-- `center_y = indicator_y + indicator_size // 2` (line 164). -/
def glyphCenterY (size : Nat) : Nat := indicator_y size + indicator_size size / 2

/-- Membership in the filled dot (lines 172–176). -/
def inDot (size px py : Nat) : Bool :=
  ((px : Int) - glyphCenterX size) ^ 2 + ((py : Int) - glyphCenterY size) ^ 2 ≤
    (dot_radius size : Int) ^ 2

/-- Membership in the arc band of outer radius `k·indicator_size/10`
(`k ∈ {3,5,7}`), sector within 60° of the positive x-axis (`dy² ≤ 3·dx²`,
`dx ≥ 0`), stroke extending inward by `arc_width`. -/
def inArcBand (size k px py : Nat) : Bool :=
  let dx : Int := (px : Int) - glyphCenterX size
  let dy : Int := (py : Int) - glyphCenterY size
  let n : Int := dx ^ 2 + dy ^ 2
  let rO : Int := k * indicator_size size
  let w : Int := arc_width size
  1 ≤ w && 0 ≤ dx && dy ^ 2 ≤ 3 * dx ^ 2 && 100 * n ≤ rO ^ 2 &&
    (max 0 (rO - 10 * w)) ^ 2 ≤ 100 * n

/-- Membership in any of the three arcs (lines 166–169). -/
def inArcs (size px py : Nat) : Bool :=
  inArcBand size 3 px py || inArcBand size 5 px py || inArcBand size 7 px py

/-- A pixel painted by the indicator glyph (all glyph draw calls share the
same fill `wave_color`, so arc/dot overdraw order is immaterial). -/
def glyphHit (size px py : Nat) : Bool := inDot size px py || inArcs size px py

/-- The glyph pass: paint `wave_color` over glyph pixels. -/
def glyphPass (size : Nat) (img : Img) : Img :=
  ⟨img.width, img.height, fun x y => if glyphHit size x y then wave_color else img.pix x y⟩

/-! ## The compositor (lines 10–178) -/

/-- `create_app_icon(size)`: gradient+overlay background, composite the
rotated back card then the rotated front card over it, then draw the
indicator glyph.  `rotB` and `rotF` are the resampling transforms of the two
`rotate` calls (lines 82, 147).  A pure function of its arguments: it performs
no I/O and mutates nothing but the buffers it builds and returns. -/
def create_app_icon (rotB rotF : Resampler) (size : Nat) : Img :=
  glyphPass size
    (alphaComposite (alphaComposite (overlayImg size) (applyRot rotB (backLayer size)))
      (applyRot rotF (frontLayer size)))

/-! ## `main` and the asset writer (lines 181–218)

`main` computes the 1024-pixel icon, saves it as `AppIcon.png` (PNG storage of
an RGBA raster is lossless, so the file is modelled as holding the raster
itself), then overwrites `Contents.json` with a hard-coded string literal.
The filesystem is a map from paths to file contents; paths are modelled
relative to the project directory (the script derives the same directory from
its own location at runtime). -/

/-- A file is either a raster image (the PNG) or text. -/
inductive FileData where
  | image : Img → FileData
  | text : String → FileData

/-- A filesystem state. -/
def FS : Type := String → Option FileData

/-- One unconditional (overwriting) file write. -/
def setFile (fs : FS) (p : String) (d : FileData) : FS :=
  fun q => if q = p then some d else fs q

def output_dir : String := "CardPro/Resources/Assets.xcassets/AppIcon.appiconset"

/-- `output_path = os.path.join(output_dir, 'AppIcon.png')` (line 193). -/
def output_path : String := output_dir ++ "/AppIcon.png"

/-- `contents_path = os.path.join(output_dir, 'Contents.json')` (line 213). -/
def contents_path : String := output_dir ++ "/Contents.json"

/-- The hard-coded `contents_json` string literal (lines 198–211), verbatim. -/
def contents_json : String :=
  "\x7b\n  \"images\" : [\n    \x7b\n      \"filename\" : \"AppIcon.png\",\n      \"idiom\" : \"universal\",\n      \"platform\" : \"ios\",\n      \"size\" : \"1024x1024\"\n    \x7d\n  ],\n  \"info\" : \x7b\n    \"author\" : \"xcode\",\n    \"version\" : 1\n  \x7d\n\x7d"

/-- The two file writes `main` performs, in program order: first the PNG,
then the descriptor (lines 193–194 and 213–215). -/
def mainWrites (rotB rotF : Resampler) : List (String × FileData) :=
  [(output_path, .image (create_app_icon rotB rotF 1024)),
   (contents_path, .text contents_json)]

/-- Apply a prefix of a write list to a filesystem state (modelling a run that
fails after the first `k` writes succeeded: no rollback exists). -/
def runWrites (ws : List (String × FileData)) (fs : FS) : FS :=
  ws.foldl (fun s w => setFile s w.1 w.2) fs

/-- `main()`: generate the 1024×1024 icon and perform both writes. -/
def main (rotB rotF : Resampler) (fs : FS) : FS := runWrites (mainWrites rotB rotF) fs

/-! ## The descriptor record

A minimal JSON value type, the static descriptor record from the spec, and a
renderer reproducing the script's literal layout, to state that the written
text is exactly a serialization of that record. -/

inductive Json where
  | str : String → Json
  | num : Nat → Json
  | arr : List Json → Json
  | obj : List (String × Json) → Json

def spaces (n : Nat) : String := String.mk (List.replicate n ' ')

mutual
/-- Render a JSON value at an indentation level, in the layout of the
script's literal (`"key" : value`, two-space indent). -/
def renderJson (ind : Nat) : Json → String
  | .str s => "\"" ++ s ++ "\""
  | .num n => toString n
  | .arr js => "[\n" ++ renderItems (ind + 2) js ++ "\n" ++ spaces ind ++ "]"
  | .obj fs => "\x7b\n" ++ renderFields (ind + 2) fs ++ "\n" ++ spaces ind ++ "\x7d"

def renderItems (ind : Nat) : List Json → String
  | [] => ""
  | [j] => spaces ind ++ renderJson ind j
  | j :: rest => spaces ind ++ renderJson ind j ++ ",\n" ++ renderItems ind rest

def renderFields (ind : Nat) : List (String × Json) → String
  | [] => ""
  | [(k, v)] => spaces ind ++ "\"" ++ k ++ "\" : " ++ renderJson ind v
  | (k, v) :: rest =>
      spaces ind ++ "\"" ++ k ++ "\" : " ++ renderJson ind v ++ ",\n" ++ renderFields ind rest
end

/-- The static descriptor record of spec §6. -/
def descriptor : Json :=
  .obj [("images", .arr [.obj [("filename", .str "AppIcon.png"), ("idiom", .str "universal"),
         ("platform", .str "ios"), ("size", .str "1024x1024")]]),
        ("info", .obj [("author", .str "xcode"), ("version", .num 1)])]

/-! ## Draw-call argument boxes (for claim C7)

The bounding boxes handed to PIL's region-drawing primitives, in call order.
PIL rejects a box whose second corner precedes its first (`x1 ≤ x2`,
`y1 ≤ y2` is required); the script never triggers this for any size. -/

/-- All `(x1, y1, x2, y2)` boxes the compositor passes to
`rounded_rectangle` / `rectangle` / `arc` / `ellipse`. -/
def drawCallBoxes (size : Nat) : List (Int × Int × Int × Int) :=
  let bx : Int := back_x size
  let bY : Int := back_y size
  let cw : Int := card_width size
  let ch : Int := card_height size
  let cr : Int := corner_radius size
  let so : Int := shadow_offset size
  let ah : Int := accent_height size
  let fx : Int := front_x size
  let fy : Int := front_y size
  let bw : Int := bar_width size
  let lx : Int := line_x size
  let lw : Int := line_width size
  let lh : Int := line_height size
  let ly0 : Int := line_y0 size
  let ly1 : Int := line_y1 size
  let ly2 : Int := line_y2 size
  let ly3 : Int := line_y3 size
  let gx : Int := glyphCenterX size
  let gy : Int := glyphCenterY size
  let dr : Int := dot_radius size
  let isz : Int := indicator_size size
  [(bx + so, bY + so, bx + cw + so, bY + ch + so),
   (bx, bY, bx + cw, bY + ch),
   (bx, bY, bx + cw, bY + ah),
   (bx, bY + ah - cr, bx + cw, bY + ah),
   (fx + 2 * so, fy + 2 * so, fx + cw + 2 * so, fy + ch + 2 * so),
   (fx, fy, fx + cw, fy + ch),
   (fx, fy, fx + bw + cr, fy + ch),
   (fx + bw, fy, fx + bw + cr, fy + ch),
   (lx, ly0, lx + lw, ly0 + lh),
   (lx, ly1, lx + lw * 7 / 10, ly1 + lh * 6 / 10),
   (lx, ly2, lx + lw * 6 / 10, ly2 + lh * 5 / 10),
   (lx, ly3, lx + lw * 75 / 100, ly3 + lh * 5 / 10),
   (gx - 3 * isz / 10, gy - 3 * isz / 10, gx + 3 * isz / 10, gy + 3 * isz / 10),
   (gx - 5 * isz / 10, gy - 5 * isz / 10, gx + 5 * isz / 10, gy + 5 * isz / 10),
   (gx - 7 * isz / 10, gy - 7 * isz / 10, gx + 7 * isz / 10, gy + 7 * isz / 10),
   (gx - dr, gy - dr, gx + dr, gy + dr)]

/-- PIL's bounding-box precondition. -/
def boxOk (b : Int × Int × Int × Int) : Bool := b.1 ≤ b.2.2.1 && b.2.1 ≤ b.2.2.2

end CardPro

namespace CardPro

/-! ## Arithmetic helper lemmas -/

theorem isqrtAux_spec : ∀ f n : Nat, n ≤ f →
    (isqrtAux f n) ^ 2 ≤ n ∧ n < (isqrtAux f n + 1) ^ 2 := by
  intro f
  induction f with
  | zero =>
    intro n hn
    have h0 : n = 0 := Nat.le_zero.mp hn
    subst h0
    simp [isqrtAux]
  | succ f ih =>
    intro n hn
    by_cases h0 : n = 0
    · subst h0; simp [isqrtAux]
    · have hrec : n / 4 ≤ f := by omega
      obtain ⟨ih1, ih2⟩ := ih (n / 4) hrec
      have hmod := Nat.div_add_mod n 4
      have hm4 : n % 4 < 4 := Nat.mod_lt n (by norm_num)
      simp only [isqrtAux, h0, if_false]
      set m := isqrtAux f (n / 4) with hm
      have h4 : 4 * m ^ 2 ≤ 4 * (n / 4) := by omega
      by_cases hle : (2 * m + 1) ^ 2 ≤ n
      · rw [if_pos hle]
        refine ⟨hle, ?_⟩
        nlinarith
      · rw [if_neg hle]
        refine ⟨?_, not_le.mp hle⟩
        have he : (2 * m) ^ 2 = 4 * m ^ 2 := by ring
        rw [he]
        set M := m ^ 2 with hM
        omega

theorem isqrt_spec (n : Nat) : (isqrt n) ^ 2 ≤ n ∧ n < (isqrt n + 1) ^ 2 :=
  isqrtAux_spec n n le_rfl

theorem sqrtCeil_ge (n : Nat) : n ≤ sqrtCeil n ^ 2 := by
  obtain ⟨h1, h2⟩ := isqrt_spec n
  unfold sqrtCeil
  split
  · nlinarith
  · nlinarith

theorem sqrtCeil_le {n m : Nat} (h : n ≤ m ^ 2) : sqrtCeil n ≤ m := by
  obtain ⟨h1, h2⟩ := isqrt_spec n
  unfold sqrtCeil
  split
  · rename_i hp
    by_contra hc
    push_neg at hc
    nlinarith
  · rename_i hp
    by_contra hc
    push_neg at hc
    have hm : m ≤ isqrt n := by omega
    have : m ^ 2 ≤ (isqrt n) ^ 2 := Nat.pow_le_pow_left hm 2
    have he : n = (isqrt n) ^ 2 := by omega
    exact hp (by nlinarith [he])

theorem ceilSqrtDiv_ge {q : Nat} (s : Nat) (hq : 0 < q) : s ≤ (ceilSqrtDiv s q * q) ^ 2 := by
  have h1 : sqrtCeil s ≤ ceilSqrtDiv s q * q := by
    unfold ceilSqrtDiv
    have hdm := Nat.div_add_mod (sqrtCeil s + q - 1) q
    have hml : (sqrtCeil s + q - 1) % q < q := Nat.mod_lt _ hq
    rw [mul_comm]
    generalize q * ((sqrtCeil s + q - 1) / q) = t at hdm ⊢
    omega
  calc s ≤ (sqrtCeil s) ^ 2 := sqrtCeil_ge s
    _ ≤ (ceilSqrtDiv s q * q) ^ 2 := Nat.pow_le_pow_left h1 2

theorem ceilSqrtDiv_le {s q m : Nat} (hq : 0 < q) (h : s ≤ (m * q) ^ 2) :
    ceilSqrtDiv s q ≤ m := by
  have h1 : sqrtCeil s ≤ m * q := sqrtCeil_le h
  unfold ceilSqrtDiv
  have h2 : sqrtCeil s + q - 1 ≤ q - 1 + q * m := by
    rw [mul_comm] at h1
    generalize q * m = t at h1 ⊢
    omega
  calc (sqrtCeil s + q - 1) / q ≤ (q - 1 + q * m) / q := Nat.div_le_div_right h2
    _ = (q - 1) / q + m := Nat.add_mul_div_left _ _ hq
    _ = m := by rw [Nat.div_eq_of_lt (by omega), Nat.zero_add]

theorem ceilSqrtDiv_mono {s t : Nat} (q : Nat) (h : s ≤ t) :
    ceilSqrtDiv s q ≤ ceilSqrtDiv t q := by
  rcases Nat.eq_zero_or_pos q with hq | hq
  · subst hq; simp [ceilSqrtDiv]
  · exact ceilSqrtDiv_le hq (le_trans h (ceilSqrtDiv_ge t hq))

end CardPro

namespace CardPro

/-! ## Overlay and compositing lemmas -/

/-- The radial-overlay pass always yields a fully opaque pixel. -/
theorem overlayPix_a (size x y : Nat) : (overlayPix size x y).a = 255 := by
  unfold overlayPix
  split <;> rfl

/-- Outside the disc the overlay pass leaves the gradient pixel unchanged. -/
theorem overlayPix_frame {size x y : Nat}
    (h : inDisc size (distSq (size / 2) (size / 2) x y) = false) :
    overlayPix size x y = gradRow size y := by
  unfold overlayPix
  rw [h]
  rfl

/-- Farther pixels get an equal or smaller channel value from the overlay
replacement (the blend offset decays with distance). -/
theorem overlayChan_anti {n₁ n₂ : Nat} (size c : Nat) (h : n₁ ≤ n₂) :
    overlayChan size n₂ c ≤ overlayChan size n₁ c := by
  unfold overlayChan
  have hmono := ceilSqrtDiv_mono (12 * (size / 2))
    (Nat.mul_le_mul_right ((3 * c + 300) ^ 2) h)
  omega

/-- Compositing a fully transparent source pixel over an opaque destination
pixel leaves the destination unchanged. -/
theorem acPix_src_clear {d : RGBA} (hd : d.a = 255) : acPix d clear = d := by
  obtain ⟨r, g, b, a⟩ := d
  simp only [RGBA.a] at hd
  subst hd
  simp only [acPix, clear]
  norm_num
  refine ⟨?_, ?_, ?_⟩ <;> omega

/-- Compositing any byte-ranged source pixel over an opaque destination pixel
yields an opaque pixel. -/
theorem acPix_a {d s : RGBA} (hs : s.a ≤ 255) (hd : d.a = 255) : (acPix d s).a = 255 := by
  unfold acPix
  rw [hd]
  have hD : 255 * s.a + 255 * (255 - s.a) = 65025 := by omega
  rw [hD]
  norm_num

/-! ## Layer pixel validity -/

theorem backLayer_valid (size : Nat) : ∀ x y, ((backLayer size).pix x y).Valid := by
  intro x y
  simp only [backLayer]
  repeat' split
  all_goals decide

theorem frontLayer_valid (size : Nat) : ∀ x y, ((frontLayer size).pix x y).Valid := by
  intro x y
  simp only [frontLayer]
  repeat' split
  all_goals decide

/-! ## Membership bounds -/

theorem inRect_bounds {x1 y1 x2 y2 px py : Int} (h : inRect x1 y1 x2 y2 px py = true) :
    x1 ≤ px ∧ px ≤ x2 ∧ y1 ≤ py ∧ py ≤ y2 := by
  simp only [inRect, Bool.and_eq_true, decide_eq_true_eq] at h
  tauto

theorem inRoundedRect_bounds {x1 y1 x2 y2 r px py : Int}
    (h : inRoundedRect x1 y1 x2 y2 r px py = true) :
    x1 ≤ px ∧ px ≤ x2 ∧ y1 ≤ py ∧ py ≤ y2 := by
  simp only [inRoundedRect, Bool.and_eq_true] at h
  exact inRect_bounds h.1

end CardPro

namespace CardPro

/-! ## Card-layer support bounds at size 1024

Every draw call of either card layer is confined to its bounding box; at size
1024 all back-card boxes lie in `[286,864] × [327,694]` and all front-card
boxes in `[225,818] × [389,756]`, so every painted pixel is within distance
398 of the canvas center `(512, 512)`. -/

/-- From per-box linear bounds to the quadratic distance bound. -/
theorem support_step (Mx My : Int) {x y : Nat} {x1 y1 x2 y2 : Int}
    (h1 : x1 ≤ (x : Int)) (h2 : (x : Int) ≤ x2) (h3 : y1 ≤ (y : Int)) (h4 : (y : Int) ≤ y2)
    (hx1 : 512 - Mx ≤ x1) (hx2 : x2 ≤ 512 + Mx) (hy1 : 512 - My ≤ y1) (hy2 : y2 ≤ 512 + My)
    (hM : Mx ^ 2 + My ^ 2 ≤ 398 ^ 2) :
    ((x : Int) - 512) ^ 2 + ((y : Int) - 512) ^ 2 ≤ 398 ^ 2 := by
  have hx : ((x : Int) - 512) ^ 2 ≤ Mx ^ 2 := sq_le_sq' (by linarith) (by linarith)
  have hy : ((y : Int) - 512) ^ 2 ≤ My ^ 2 := sq_le_sq' (by linarith) (by linarith)
  linarith

theorem backLayer_support : ∀ x y : Nat, (backLayer 1024).pix x y ≠ clear →
    ((x : Int) - 512) ^ 2 + ((y : Int) - 512) ^ 2 ≤ 398 ^ 2 := by
  intro x y h
  simp only [backLayer] at h
  norm_num [back_x, back_y, card_width, card_height, corner_radius, shadow_offset,
    accent_height] at h
  repeat' split at h
  · rename_i hc
    obtain ⟨h1, h2, h3, h4⟩ := inRect_bounds hc
    exact support_step 352 185 h1 h2 h3 h4 (by norm_num) (by norm_num) (by norm_num)
      (by norm_num) (by norm_num)
  · rename_i hc
    obtain ⟨h1, h2, h3, h4⟩ := inRoundedRect_bounds hc
    exact support_step 352 185 h1 h2 h3 h4 (by norm_num) (by norm_num) (by norm_num)
      (by norm_num) (by norm_num)
  · rename_i hc
    obtain ⟨h1, h2, h3, h4⟩ := inRoundedRect_bounds hc
    exact support_step 352 185 h1 h2 h3 h4 (by norm_num) (by norm_num) (by norm_num)
      (by norm_num) (by norm_num)
  · rename_i hc
    obtain ⟨h1, h2, h3, h4⟩ := inRoundedRect_bounds hc
    exact support_step 352 185 h1 h2 h3 h4 (by norm_num) (by norm_num) (by norm_num)
      (by norm_num) (by norm_num)
  · exact absurd rfl h

theorem frontLayer_support : ∀ x y : Nat, (frontLayer 1024).pix x y ≠ clear →
    ((x : Int) - 512) ^ 2 + ((y : Int) - 512) ^ 2 ≤ 398 ^ 2 := by
  intro x y h
  simp only [frontLayer] at h
  norm_num [front_x, front_y, card_width, card_height, corner_radius, shadow_offset,
    bar_width, line_x, line_width, line_height, line_y0, line_y1, line_y2, line_y3] at h
  repeat' split at h
  · rename_i hc
    obtain ⟨h1, h2, h3, h4⟩ := inRoundedRect_bounds hc
    exact support_step 306 244 h1 h2 h3 h4 (by norm_num) (by norm_num) (by norm_num)
      (by norm_num) (by norm_num)
  · rename_i hc
    obtain ⟨h1, h2, h3, h4⟩ := inRoundedRect_bounds hc
    exact support_step 306 244 h1 h2 h3 h4 (by norm_num) (by norm_num) (by norm_num)
      (by norm_num) (by norm_num)
  · rename_i hc
    obtain ⟨h1, h2, h3, h4⟩ := inRoundedRect_bounds hc
    exact support_step 306 244 h1 h2 h3 h4 (by norm_num) (by norm_num) (by norm_num)
      (by norm_num) (by norm_num)
  · rename_i hc
    obtain ⟨h1, h2, h3, h4⟩ := inRoundedRect_bounds hc
    exact support_step 306 244 h1 h2 h3 h4 (by norm_num) (by norm_num) (by norm_num)
      (by norm_num) (by norm_num)
  · rename_i hc
    obtain ⟨h1, h2, h3, h4⟩ := inRect_bounds hc
    exact support_step 306 244 h1 h2 h3 h4 (by norm_num) (by norm_num) (by norm_num)
      (by norm_num) (by norm_num)
  · rename_i hc
    obtain ⟨h1, h2, h3, h4⟩ := inRoundedRect_bounds hc
    exact support_step 306 244 h1 h2 h3 h4 (by norm_num) (by norm_num) (by norm_num)
      (by norm_num) (by norm_num)
  · rename_i hc
    obtain ⟨h1, h2, h3, h4⟩ := inRoundedRect_bounds hc
    exact support_step 306 244 h1 h2 h3 h4 (by norm_num) (by norm_num) (by norm_num)
      (by norm_num) (by norm_num)
  · rename_i hc
    obtain ⟨h1, h2, h3, h4⟩ := inRoundedRect_bounds hc
    exact support_step 306 244 h1 h2 h3 h4 (by norm_num) (by norm_num) (by norm_num)
      (by norm_num) (by norm_num)
  · exact absurd rfl h

/-! ## Rotation locality -/

/-- The identity resampler satisfies the distance-locality property. -/
theorem rotIdR_support : RotSupport rotIdR := by
  intro img R x y hx hy hsupp hfar
  by_contra hne
  have hne' : img.pix x y ≠ clear := hne
  have h1 := hsupp x y hx hy hne'
  have hR : (0 : Int) ≤ (R : Int) := Int.natCast_nonneg R
  nlinarith [h1, hfar]

/-- For any distance-local resampler, the rotated back card is transparent at
pixels farther than 401 from the center. -/
theorem rot_back_clear {rotB : Resampler} (hB : RotSupport rotB) {x y : Nat}
    (hx : x < 1024) (hy : y < 1024)
    (hfar : (401 : Int) ^ 2 < ((x : Int) - 512) ^ 2 + ((y : Int) - 512) ^ 2) :
    rotB.sample (backLayer 1024) x y = clear := by
  apply hB (backLayer 1024) 398 x y hx hy
  · intro sx sy hsx hsy hne
    have h := backLayer_support sx sy hne
    simp only [backLayer]
    convert h using 3
  · simp only [backLayer]
    convert hfar using 3

/-- For any distance-local resampler, the rotated front card is transparent at
pixels farther than 401 from the center. -/
theorem rot_front_clear {rotF : Resampler} (hF : RotSupport rotF) {x y : Nat}
    (hx : x < 1024) (hy : y < 1024)
    (hfar : (401 : Int) ^ 2 < ((x : Int) - 512) ^ 2 + ((y : Int) - 512) ^ 2) :
    rotF.sample (frontLayer 1024) x y = clear := by
  apply hF (frontLayer 1024) 398 x y hx hy
  · intro sx sy hsx hsy hne
    have h := frontLayer_support sx sy hne
    simp only [frontLayer]
    convert h using 3
  · simp only [frontLayer]
    convert hfar using 3

/-- Far from the center and away from the glyph, the final icon pixel is just
the gradient-plus-overlay background. -/
theorem icon_pix_bg {rotB rotF : Resampler} (hB : RotSupport rotB) (hF : RotSupport rotF)
    {x y : Nat} (hx : x < 1024) (hy : y < 1024)
    (hfar : (401 : Int) ^ 2 < ((x : Int) - 512) ^ 2 + ((y : Int) - 512) ^ 2)
    (hg : glyphHit 1024 x y = false) :
    (create_app_icon rotB rotF 1024).pix x y = overlayPix 1024 x y := by
  simp only [create_app_icon, glyphPass, alphaComposite, applyRot, overlayImg]
  rw [if_neg (by simp [hg]),
    rot_back_clear hB hx hy hfar, rot_front_clear hF hx hy hfar,
    acPix_src_clear (overlayPix_a 1024 x y), acPix_src_clear (overlayPix_a 1024 x y)]

end CardPro

namespace CardPro

/-! ## Claim theorems -/

/-- C1: for every size (in particular every positive size), `create_app_icon`
returns a square RGBA image of exactly `size × size` pixels, whatever
resamplers the two rotations use.  The embedding is a pure function — the
compositor performs no I/O and mutates nothing outside the buffers it builds
and returns, which the spec phrases as "no side effects outside the returned
buffer". -/
theorem create_app_icon_dims (rotB rotF : Resampler) (size : Nat) :
    (create_app_icon rotB rotF size).width = size ∧
    (create_app_icon rotB rotF size).height = size :=
  ⟨rfl, rfl⟩

/-- C10: every intermediate buffer of the pipeline — gradient base, overlaid
background, both card layers, both rotated card layers, both
`alpha_composite` results, and the final image — is square of the requested
size; in particular each `alpha_composite` call receives two images of
identical dimensions and rotation does not change dimensions. -/
theorem pipeline_dims (rotB rotF : Resampler) (size : Nat) :
    (gradImg size).width = size ∧ (gradImg size).height = size ∧
    (overlayImg size).width = size ∧ (overlayImg size).height = size ∧
    (backLayer size).width = size ∧ (backLayer size).height = size ∧
    (frontLayer size).width = size ∧ (frontLayer size).height = size ∧
    (applyRot rotB (backLayer size)).width = size ∧
    (applyRot rotB (backLayer size)).height = size ∧
    (applyRot rotF (frontLayer size)).width = size ∧
    (applyRot rotF (frontLayer size)).height = size ∧
    (alphaComposite (overlayImg size) (applyRot rotB (backLayer size))).width = size ∧
    (alphaComposite (overlayImg size) (applyRot rotB (backLayer size))).height = size ∧
    (alphaComposite (alphaComposite (overlayImg size) (applyRot rotB (backLayer size)))
      (applyRot rotF (frontLayer size))).width = size ∧
    (alphaComposite (alphaComposite (overlayImg size) (applyRot rotB (backLayer size)))
      (applyRot rotF (frontLayer size))).height = size ∧
    (create_app_icon rotB rotF size).width = size ∧
    (create_app_icon rotB rotF size).height = size :=
  ⟨rfl, rfl, rfl, rfl, rfl, rfl, rfl, rfl, rfl, rfl, rfl, rfl, rfl, rfl, rfl, rfl, rfl, rfl⟩

/-- C4: running `main` (with the generator at size 1024) leaves `AppIcon.png`
holding a 1024 × 1024 raster and `Contents.json` holding exactly the
hard-coded descriptor text, which is precisely the serialization of the
static descriptor record of spec §6; the descriptor text is a constant,
independent of the initial filesystem state and of every computed value. -/
theorem main_outputs (rotB rotF : Resampler) (fs : FS) :
    main rotB rotF fs output_path = some (.image (create_app_icon rotB rotF 1024)) ∧
    (create_app_icon rotB rotF 1024).width = 1024 ∧
    (create_app_icon rotB rotF 1024).height = 1024 ∧
    main rotB rotF fs contents_path = some (.text contents_json) ∧
    contents_json = renderJson 0 descriptor := by
  have h1 : output_path ≠ contents_path := by decide
  have h2 : contents_path ≠ output_path := by decide
  refine ⟨?_, rfl, rfl, ?_, by rfl⟩ <;>
    simp [main, runWrites, mainWrites, setFile, h1, h2]

/-- C5: the generator is deterministic — the files `main` writes depend on
nothing but the program's constants: two invocations from arbitrary (even
different) initial filesystem states produce identical, pixel-for-pixel
equal outputs.  The compositor itself is a pure function of `size`, with no
randomness or time dependence. -/
theorem main_deterministic (rotB rotF : Resampler) (fs₁ fs₂ : FS) :
    main rotB rotF fs₁ output_path = main rotB rotF fs₂ output_path ∧
    main rotB rotF fs₁ contents_path = main rotB rotF fs₂ contents_path := by
  have h1 : output_path ≠ contents_path := by decide
  have h2 : contents_path ≠ output_path := by decide
  constructor <;> simp [main, runWrites, mainWrites, setFile, h1, h2]

/-- C9: `main`'s writes are unconditional overwrites (the result at both
output paths is the fresh content for every initial state), happen in the
fixed order PNG first then descriptor, and have no rollback: a run that
stops after the first write leaves the new `AppIcon.png` on disk while
`Contents.json` is whatever it was before. -/
theorem main_write_order (rotB rotF : Resampler) (fs : FS) :
    (mainWrites rotB rotF).map Prod.fst = [output_path, contents_path] ∧
    main rotB rotF fs output_path = some (.image (create_app_icon rotB rotF 1024)) ∧
    main rotB rotF fs contents_path = some (.text contents_json) ∧
    runWrites ((mainWrites rotB rotF).take 1) fs output_path =
      some (.image (create_app_icon rotB rotF 1024)) ∧
    runWrites ((mainWrites rotB rotF).take 1) fs contents_path = fs contents_path := by
  have h1 : output_path ≠ contents_path := by decide
  have h2 : contents_path ≠ output_path := by decide
  refine ⟨rfl, ?_, ?_, ?_, ?_⟩ <;>
    simp [main, runWrites, mainWrites, List.take, setFile, h1, h2]

/-- C2 (amended): after compositing, the canvas is fully opaque — but the
indicator glyph is then drawn with the semi-transparent fill
`(255, 255, 255, 180)` written directly into the buffer, so exactly the
glyph-covered pixels of the final image carry alpha 180 while every other
pixel carries alpha 255. -/
theorem icon_alpha (rotB rotF : Resampler) (size x y : Nat) :
    ((create_app_icon rotB rotF size).pix x y).a =
      if glyphHit size x y then 180 else 255 := by
  simp only [create_app_icon, glyphPass, alphaComposite, applyRot, overlayImg]
  by_cases hg : glyphHit size x y
  · rw [if_pos hg, if_pos hg]
    rfl
  · rw [if_neg hg, if_neg hg]
    have hbv := (rotB.valid (backLayer size) (backLayer_valid size) x y).2.2.2
    have hfv := (rotF.valid (frontLayer size) (frontLayer_valid size) x y).2.2.2
    have h2 : (acPix (overlayPix size x y) (rotB.sample (backLayer size) x y)).a = 255 :=
      acPix_a hbv (overlayPix_a size x y)
    exact acPix_a hfv h2

/-- C2 (counterexample): not every pixel of the final 1024-icon is fully
opaque — the in-bounds pixel `(798, 183)` (the dot of the wireless glyph) has
alpha 180, not 255.  Its value is written by the glyph pass, after both
rotations, so it does not depend on the resampler. -/
theorem icon_alpha_cex :
    798 < 1024 ∧ 183 < 1024 ∧
    ((create_app_icon rotIdR rotIdR 1024).pix 798 183).a = 180 ∧
    ((create_app_icon rotIdR rotIdR 1024).pix 798 183).a ≠ 255 := by
  refine ⟨by decide, by decide, by decide, by decide⟩

end CardPro

namespace CardPro

set_option maxRecDepth 8000 in
/-- C3 (counterexample): column 1023 of the final 1024-icon carries no card
pixel (shown here at the two rows involved; `backLayer_support` and
`frontLayer_support` show the card layers stay within distance 398 of the
center, far from this column, for every distance-local resampler), yet the
green channel *drops* from 73 at row 170 to 51 at row 171: entering the
radial-overlay disc multiplies the channel by `factor ≈ 0.7`, so channel
values along a fixed card-free column are not monotonically increasing. -/
theorem gradient_monotone_cex :
    ((applyRot rotIdR (backLayer 1024)).pix 1023 170 = clear ∧
     (applyRot rotIdR (frontLayer 1024)).pix 1023 170 = clear ∧
     (applyRot rotIdR (backLayer 1024)).pix 1023 171 = clear ∧
     (applyRot rotIdR (frontLayer 1024)).pix 1023 171 = clear) ∧
    170 < 171 ∧
    ((create_app_icon rotIdR rotIdR 1024).pix 1023 170).g = 73 ∧
    ((create_app_icon rotIdR rotIdR 1024).pix 1023 171).g = 51 ∧
    ¬ ((create_app_icon rotIdR rotIdR 1024).pix 1023 170).g ≤
        ((create_app_icon rotIdR rotIdR 1024).pix 1023 171).g := by
  refine ⟨⟨by decide, by decide, by decide, by decide⟩, by decide, ?_, ?_, ?_⟩
  · decide
  · decide
  · decide

/-- C3 (amended): in the final 1024-icon the top-left pixel's RGB equals the
gradient start color `(20, 60, 120)` and the bottom-right pixel's channels
are within one unit of the end color `(40, 140, 160)` (both corners lie
outside the overlay disc, the glyph, and — for any distance-local
resampler — the rotated card layers); and the underlying gradient row colors
are monotonically nondecreasing from top to bottom at every size.  However,
the radial overlay breaks per-column monotonicity of the final image
(`gradient_monotone_cex`), so monotonicity holds only for the gradient rows,
not along columns of the composited image. -/
theorem gradient_endpoints (rotB rotF : Resampler)
    (hB : RotSupport rotB) (hF : RotSupport rotF) :
    (((create_app_icon rotB rotF 1024).pix 0 0).r = 20 ∧
     ((create_app_icon rotB rotF 1024).pix 0 0).g = 60 ∧
     ((create_app_icon rotB rotF 1024).pix 0 0).b = 120) ∧
    (((create_app_icon rotB rotF 1024).pix 1023 1023).r + 1 = 40 ∧
     ((create_app_icon rotB rotF 1024).pix 1023 1023).g + 1 = 140 ∧
     ((create_app_icon rotB rotF 1024).pix 1023 1023).b + 1 = 160) ∧
    (∀ size y₁ y₂ : Nat, y₁ ≤ y₂ →
      (gradRow size y₁).r ≤ (gradRow size y₂).r ∧
      (gradRow size y₁).g ≤ (gradRow size y₂).g ∧
      (gradRow size y₁).b ≤ (gradRow size y₂).b) := by
  refine ⟨?_, ?_, ?_⟩
  · rw [@icon_pix_bg rotB rotF hB hF 0 0 (by decide) (by decide) (by decide) (by decide)]
    exact ⟨by decide, by decide, by decide⟩
  · rw [@icon_pix_bg rotB rotF hB hF 1023 1023 (by decide) (by decide) (by decide) (by decide)]
    exact ⟨by decide, by decide, by decide⟩
  · intro size y₁ y₂ hy
    refine ⟨?_, ?_, ?_⟩ <;>
      exact Nat.add_le_add_left (Nat.div_le_div_right (Nat.mul_le_mul_left _ hy)) _

/-- Witness for `gradient_endpoints` at the identity resampler. -/
theorem gradient_endpoints_witness :
    (((create_app_icon rotIdR rotIdR 1024).pix 0 0).r = 20 ∧
     ((create_app_icon rotIdR rotIdR 1024).pix 0 0).g = 60 ∧
     ((create_app_icon rotIdR rotIdR 1024).pix 0 0).b = 120) ∧
    (((create_app_icon rotIdR rotIdR 1024).pix 1023 1023).r + 1 = 40 ∧
     ((create_app_icon rotIdR rotIdR 1024).pix 1023 1023).g + 1 = 140 ∧
     ((create_app_icon rotIdR rotIdR 1024).pix 1023 1023).b + 1 = 160) :=
  ⟨(gradient_endpoints rotIdR rotIdR rotIdR_support rotIdR_support).1,
   (gradient_endpoints rotIdR rotIdR rotIdR_support rotIdR_support).2.1⟩

/-- C7: for every positive size — including the degenerate `size = 1` — the
compositor runs to completion: every bounding box handed to a drawing
primitive satisfies PIL's `x1 ≤ x2 ∧ y1 ≤ y2` precondition (so no call
raises), and a well-formed `size × size` image is returned. -/
theorem no_error_conditions (rotB rotF : Resampler) (size : Nat) (_hs : 0 < size) :
    (drawCallBoxes size).all boxOk = true ∧
    (create_app_icon rotB rotF size).width = size ∧
    (create_app_icon rotB rotF size).height = size := by
  refine ⟨?_, rfl, rfl⟩
  simp only [drawCallBoxes, boxOk, List.all_cons, List.all_nil, Bool.and_eq_true,
    decide_eq_true_eq, and_true]
  omega

/-- Witness for `no_error_conditions` at `size = 1`. -/
theorem no_error_conditions_witness :
    0 < 1 ∧ (drawCallBoxes 1).all boxOk = true ∧
    (create_app_icon rotIdR rotIdR 1).width = 1 ∧
    (create_app_icon rotIdR rotIdR 1).height = 1 :=
  ⟨by decide, no_error_conditions rotIdR rotIdR 1 (by decide)⟩

end CardPro

namespace CardPro

/-- C6: (frame) every pixel whose distance from the center is at least
`0.6 * size` — which is at least the code's radius `(size//2)*1.2` — is left
untouched by the radial-overlay pass, keeping its gradient value; (decay) at
fixed base channel `c` the overlay replacement is antitone in the squared
distance; (linearity) inside the disc the blend decrement
`d = (c+30) - overlayChan` is exactly the ceiling of the linear-in-distance
quantity `dist * (0.3c+30) / max_dist` — witnessed by the squared bracket
`((d-1)·12h)² < n·(3c+300)² ≤ (d·12h)²` with `h = size//2`, `n = dist²`. -/
theorem radial_overlay_frame :
    (∀ size x y : Nat, 9 * size ^ 2 ≤ 25 * distSq (size / 2) (size / 2) x y →
      overlayPix size x y = gradRow size y) ∧
    (∀ size c n₁ n₂ : Nat, n₁ ≤ n₂ → overlayChan size n₂ c ≤ overlayChan size n₁ c) ∧
    (∀ size n c : Nat, inDisc size n = true → c ≤ 225 →
      n * (3 * c + 300) ^ 2 ≤
        ((c + 30 - overlayChan size n c) * (12 * (size / 2))) ^ 2 ∧
      (1 ≤ c + 30 - overlayChan size n c →
        ((c + 30 - overlayChan size n c - 1) * (12 * (size / 2))) ^ 2 <
          n * (3 * c + 300) ^ 2)) := by
  refine ⟨?_, ?_, ?_⟩
  · intro size x y h
    apply overlayPix_frame
    have hms : size / 2 * 2 ≤ size := Nat.div_mul_le_self size 2
    have key : 4 * (size / 2) ^ 2 ≤ size ^ 2 := by
      calc 4 * (size / 2) ^ 2 = (size / 2 * 2) ^ 2 := by ring
        _ ≤ size ^ 2 := Nat.pow_le_pow_left hms 2
    simp only [inDisc, decide_eq_false_iff_not]
    set A := (size / 2) ^ 2
    set B := size ^ 2
    omega
  · intro size c n₁ n₂ h
    exact overlayChan_anti size c h
  · intro size n c hin hc
    simp only [inDisc, decide_eq_true_eq] at hin
    have hq : 0 < 12 * (size / 2) := by
      rcases Nat.eq_zero_or_pos (size / 2) with h | h
      · rw [h] at hin
        simp at hin
      · omega
    have hle : ceilSqrtDiv (n * (3 * c + 300) ^ 2) (12 * (size / 2)) ≤ c + 30 := by
      apply ceilSqrtDiv_le hq
      have e1 : (3 * c + 300) ^ 2 ≤ (10 * (c + 30)) ^ 2 := Nat.pow_le_pow_left (by omega) 2
      have e2 : 25 * n * (3 * c + 300) ^ 2 ≤ 36 * (size / 2) ^ 2 * (10 * (c + 30)) ^ 2 :=
        Nat.mul_le_mul (le_of_lt hin) e1
      nlinarith [e2]
    have hval : overlayChan size n c =
        c + 30 - ceilSqrtDiv (n * (3 * c + 300) ^ 2) (12 * (size / 2)) := by
      unfold overlayChan
      omega
    constructor
    · rw [hval]
      have hx : c + 30 - (c + 30 - ceilSqrtDiv (n * (3 * c + 300) ^ 2) (12 * (size / 2))) =
          ceilSqrtDiv (n * (3 * c + 300) ^ 2) (12 * (size / 2)) := by omega
      rw [hx]
      exact ceilSqrtDiv_ge (n * (3 * c + 300) ^ 2) hq
    · rw [hval]
      have hx : c + 30 - (c + 30 - ceilSqrtDiv (n * (3 * c + 300) ^ 2) (12 * (size / 2))) =
          ceilSqrtDiv (n * (3 * c + 300) ^ 2) (12 * (size / 2)) := by omega
      rw [hx]
      intro h1
      by_contra hcon
      push_neg at hcon
      have := ceilSqrtDiv_le hq hcon
      omega

set_option maxRecDepth 8000 in
/-- Witness for `radial_overlay_frame`: the frame part at the bottom-right
pixel of the 1024-icon, the decay part between the squared distances of rows
171 and 170 in column 1023, and the linear bracket at row 171's squared
distance with the green base channel 73. -/
theorem radial_overlay_frame_witness :
    overlayPix 1024 1023 1023 = gradRow 1024 1023 ∧
    overlayChan 1024 378085 73 ≤ overlayChan 1024 377402 73 ∧
    377402 * (3 * 73 + 300) ^ 2 ≤
      ((73 + 30 - overlayChan 1024 377402 73) * (12 * (1024 / 2))) ^ 2 ∧
    ((73 + 30 - overlayChan 1024 377402 73 - 1) * (12 * (1024 / 2))) ^ 2 <
      377402 * (3 * 73 + 300) ^ 2 :=
  ⟨radial_overlay_frame.1 1024 1023 1023 (by decide),
   radial_overlay_frame.2.1 1024 73 377402 378085 (by decide),
   (radial_overlay_frame.2.2 1024 377402 73 (by decide) (by decide)).1,
   (radial_overlay_frame.2.2 1024 377402 73 (by decide) (by decide)).2 (by decide)⟩

/-! ## Rational bounds for the proportional geometry (claim C8) -/

theorem div_bounds_q (a b : Nat) (hb : 0 < b) :
    ((a / b : Nat) : ℚ) ≤ (a : ℚ) / (b : ℚ) ∧ (a : ℚ) / (b : ℚ) < ((a / b : Nat) : ℚ) + 1 := by
  have hdm := Nat.div_add_mod a b
  have hmod : a % b < b := Nat.mod_lt a hb
  have hbq : (0 : ℚ) < (b : ℚ) := by exact_mod_cast hb
  set t := a / b
  set r := a % b
  have hdm' : (b : ℚ) * t + r = a := by exact_mod_cast hdm
  have hr : (0 : ℚ) ≤ (r : ℚ) := by positivity
  have hrb : (r : ℚ) < b := by exact_mod_cast hmod
  constructor
  · rw [le_div_iff₀ hbq]
    nlinarith
  · rw [div_lt_iff₀ hbq]
    nlinarith

/-- `int(s * (k/b))` is within one unit of the exact proportion `(k/b) * s`. -/
theorem prop_bound (s k b : Nat) (hb : 0 < b) :
    |((s * k / b : Nat) : ℚ) - (k : ℚ) / (b : ℚ) * (s : ℚ)| < 1 := by
  obtain ⟨h1, h2⟩ := div_bounds_q (s * k) b hb
  have he : (k : ℚ) / (b : ℚ) * (s : ℚ) = ((s * k : Nat) : ℚ) / (b : ℚ) := by
    push_cast
    ring
  rw [abs_lt, he]
  constructor <;> linarith

/-- C8: every geometry constant the compositor computes as
`int(size * constant)` differs from the exact proportion `constant * size`
by less than one pixel, at every size — so the proportional geometry (card
width and all offsets) is preserved across sizes to within rounding . -/
theorem proportional_geometry (size : Nat) :
    |(card_width size : ℚ) - 55 / 100 * size| < 1 ∧
    |(back_x size : ℚ) - 28 / 100 * size| < 1 ∧
    |(back_y size : ℚ) - 32 / 100 * size| < 1 ∧
    |(corner_radius size : ℚ) - 3 / 100 * size| < 1 ∧
    |(shadow_offset size : ℚ) - 15 / 1000 * size| < 1 ∧
    |(front_x size : ℚ) - 22 / 100 * size| < 1 ∧
    |(front_y size : ℚ) - 38 / 100 * size| < 1 ∧
    |(indicator_size size : ℚ) - 12 / 100 * size| < 1 ∧
    |(indicator_x size : ℚ) - 78 / 100 * size| < 1 ∧
    |(indicator_y size : ℚ) - 12 / 100 * size| < 1 ∧
    |(dot_radius size : ℚ) - 15 / 1000 * size| < 1 ∧
    |(arc_width size : ℚ) - 12 / 1000 * size| < 1 := by
  refine ⟨?_, ?_, ?_, ?_, ?_, ?_, ?_, ?_, ?_, ?_, ?_, ?_⟩
  · simpa [card_width] using prop_bound size 55 100 (by norm_num)
  · simpa [back_x] using prop_bound size 28 100 (by norm_num)
  · simpa [back_y] using prop_bound size 32 100 (by norm_num)
  · simpa [corner_radius] using prop_bound size 3 100 (by norm_num)
  · simpa [shadow_offset] using prop_bound size 15 1000 (by norm_num)
  · simpa [front_x] using prop_bound size 22 100 (by norm_num)
  · simpa [front_y] using prop_bound size 38 100 (by norm_num)
  · simpa [indicator_size] using prop_bound size 12 100 (by norm_num)
  · simpa [indicator_x] using prop_bound size 78 100 (by norm_num)
  · simpa [indicator_y] using prop_bound size 12 100 (by norm_num)
  · simpa [dot_radius] using prop_bound size 15 1000 (by norm_num)
  · simpa [arc_width] using prop_bound size 12 1000 (by norm_num)

end CardPro
